import Mathlib

/-!
Verification of the semantic zoom/pan scatter-plot core (src/App.tsx).

Numbers that the TypeScript source holds in IEEE doubles are embedded as
rationals (ℚ); every literal involved (0.5, 0.75, 0.8, 250, …) is exactly
representable, so the ℚ semantics agrees with the source on the quantities
the claims are about.
-/

namespace Novasenta

/-- The data-space bounding box `{minX, maxX, minY, maxY}` derived from the
point set (App.tsx lines 6-12 compute these four constants). -/
structure Domain where
  minX : ℚ
  maxX : ℚ
  minY : ℚ
  maxY : ℚ

/-- `const minZoom = 0.5` (App.tsx line 19). -/
def minZoom : ℚ := 0.5

/-- `const maxZoom = 100` (App.tsx line 20). -/
def maxZoom : ℚ := 100

/-- The soft zoom ceiling `maxZoom * 0.75` used by `transformFunc`
(the spec names this quantity `capK`). -/
def capK : ℚ := maxZoom * 0.75

/-- `transformFunc` (App.tsx lines 34-36):
`k < maxZoom * 0.75 ? dimension / k : dimension / (maxZoom * 0.75)`. -/
def transformFunc (k : ℚ) (dimension : ℚ) : ℚ :=
  if k < maxZoom * 0.75 then dimension / k else dimension / (maxZoom * 0.75)

/-- The zoom-independent base size `(maxY - minY) / 250` (the spec's
`baseUnit`); it is the argument passed to `transformFunc` at App.tsx line 75. -/
def baseUnit (d : Domain) : ℚ := (d.maxY - d.minY) / 250

/-- `const unit = transformFunc((maxY - minY) / 250)` (App.tsx line 75),
as a function of the current zoom factor `k`. -/
def unit (d : Domain) (k : ℚ) : ℚ := transformFunc k (baseUnit d)

/-- C1: for every zoom factor `k` in `[minZoom, capK)` the semantic unit is
`baseUnit / k`, for `k` in `[capK, maxZoom]` it is the frozen `baseUnit / capK`,
and on a domain of height 100 (`baseUnit = 0.4`) the concrete values are
`unit 1 = 0.4`, `unit 50 = 0.008`, `unit 90 = 0.4 / 75`. -/
theorem unit_semantic_scale (d : Domain) (k : ℚ) :
    (minZoom ≤ k → k < capK → unit d k = baseUnit d / k) ∧
    (capK ≤ k → k ≤ maxZoom → unit d k = baseUnit d / capK) ∧
    (d.maxY - d.minY = 100 →
      unit d 1 = 0.4 ∧ unit d 50 = 0.008 ∧ unit d 90 = 0.4 / 75) := by
  refine ⟨fun _ h2 => ?_, fun h1 _ => ?_, fun h => ⟨?_, ?_, ?_⟩⟩
  · rw [unit, transformFunc, if_pos]
    exact lt_of_lt_of_le h2 (by rw [capK])
  · rw [unit, transformFunc, if_neg, capK]
    rw [capK] at h1
    exact not_lt.mpr h1
  · rw [unit, transformFunc, baseUnit, h, if_pos (by norm_num [maxZoom])]
    norm_num
  · rw [unit, transformFunc, baseUnit, h, if_pos (by norm_num [maxZoom])]
    norm_num
  · rw [unit, transformFunc, baseUnit, h, if_neg (by norm_num [maxZoom])]
    norm_num [maxZoom]

/-- Witness for C1: each hypothesis discharged at concrete inputs on the
domain `[0,100] × [0,100]`. -/
theorem unit_semantic_scale_witness :
    unit ⟨0, 100, 0, 100⟩ 1 = baseUnit ⟨0, 100, 0, 100⟩ / 1 ∧
    unit ⟨0, 100, 0, 100⟩ 90 = baseUnit ⟨0, 100, 0, 100⟩ / capK ∧
    unit ⟨0, 100, 0, 100⟩ 50 = 0.008 :=
  ⟨(unit_semantic_scale ⟨0, 100, 0, 100⟩ 1).1 (by norm_num [minZoom])
      (by norm_num [capK, maxZoom]),
   (unit_semantic_scale ⟨0, 100, 0, 100⟩ 90).2.1 (by norm_num [capK, maxZoom])
      (by norm_num [maxZoom]),
   ((unit_semantic_scale ⟨0, 100, 0, 100⟩ 50).2.2 (by norm_num)).2.1⟩

/-- C2: over `[minZoom, maxZoom]` on a non-degenerate domain the semantic
unit is non-increasing in the zoom factor and bounded below by
`baseUnit / capK`. -/
theorem unit_antitone_bounded (d : Domain) (hd : d.minY < d.maxY) :
    (∀ k1 k2 : ℚ, minZoom ≤ k1 → k1 ≤ k2 → k2 ≤ maxZoom →
        unit d k2 ≤ unit d k1) ∧
    (∀ k : ℚ, minZoom ≤ k → k ≤ maxZoom → baseUnit d / capK ≤ unit d k) := by
  have hb : (0 : ℚ) < baseUnit d := by
    rw [baseUnit]
    have : (0 : ℚ) < d.maxY - d.minY := sub_pos.mpr hd
    positivity
  have hcap : (0 : ℚ) < maxZoom * 0.75 := by norm_num [maxZoom]
  constructor
  · intro k1 k2 hk1 h12 _
    have h01 : (0 : ℚ) < k1 := lt_of_lt_of_le (by norm_num [minZoom]) hk1
    have h02 : (0 : ℚ) < k2 := lt_of_lt_of_le h01 h12
    rw [unit, unit, transformFunc, transformFunc]
    split_ifs with ha hc hc
    · exact div_le_div_of_nonneg_left hb.le h01 h12
    · exact absurd (lt_of_le_of_lt h12 ha) hc
    · exact div_le_div_of_nonneg_left hb.le h01 (le_of_lt hc)
    · exact le_refl _
  · intro k hk _
    have h0k : (0 : ℚ) < k := lt_of_lt_of_le (by norm_num [minZoom]) hk
    rw [unit, transformFunc, capK]
    split_ifs with hkc
    · exact div_le_div_of_nonneg_left hb.le h0k (le_of_lt hkc)
    · exact le_refl _

/-- Witness for C2: the hypotheses discharged on the domain
`[0,100] × [0,100]` at concrete zoom factors 1 and 2. -/
theorem unit_antitone_bounded_witness :
    unit ⟨0, 100, 0, 100⟩ 2 ≤ unit ⟨0, 100, 0, 100⟩ 1 ∧
    baseUnit ⟨0, 100, 0, 100⟩ / capK ≤ unit ⟨0, 100, 0, 100⟩ 1 :=
  ⟨(unit_antitone_bounded ⟨0, 100, 0, 100⟩ (by norm_num)).1 1 2
      (by norm_num [minZoom]) (by norm_num) (by norm_num [maxZoom]),
   (unit_antitone_bounded ⟨0, 100, 0, 100⟩ (by norm_num)).2 1
      (by norm_num [minZoom]) (by norm_num [maxZoom])⟩

/-- `ViewTransform`: the translate + uniform-scale map that d3 maintains and
the renderer applies as a group-level transform (`x`, `y` translate, `k`
scale). -/
structure ViewTransform where
  x : ℚ
  y : ℚ
  k : ℚ

/-- `d3.zoomIdentity`: scale 1, translate (0, 0). -/
def zoomIdentity : ViewTransform := ⟨0, 0, 1⟩

/-- d3's `transform.scale(s)`: multiplies the scale component, leaving the
translate untouched. -/
def ViewTransform.scale (t : ViewTransform) (s : ℚ) : ViewTransform :=
  ⟨t.x, t.y, t.k * s⟩

/-- The 250 ms duration passed to the transition in `resetZoom`
(App.tsx line 69). -/
def resetDuration : ℕ := 250

/-- `resetZoom` (App.tsx lines 61-72) installs `d3.zoomIdentity.scale(0.8)`
regardless of the transform currently in effect. -/
def resetZoom (_current : ViewTransform) : ViewTransform :=
  zoomIdentity.scale 0.8

/-- Modelled from the spec: the scale clamping performed by the external d3
zoom behavior once it is configured with `scaleExtent([minZoom, maxZoom])`
(App.tsx line 50). The clamping code itself lives in the d3 library, outside
this repository; the repository only supplies the two bounds. -/
def clampScale (s : ℚ) : ℚ := max minZoom (min maxZoom s)

/-- C3: the resulting scale is `max(minZoom, min(maxZoom, s))` with
`minZoom = 0.5` and `maxZoom = 100`; an out-of-range request is clamped to
the nearest bound (and the clamp is total — every request yields an
in-range scale, never an error). -/
theorem zoom_clamp (s : ℚ) :
    clampScale s = max minZoom (min maxZoom s) ∧
    minZoom = 0.5 ∧ maxZoom = 100 ∧
    minZoom ≤ clampScale s ∧ clampScale s ≤ maxZoom ∧
    (s < minZoom → clampScale s = minZoom) ∧
    (maxZoom < s → clampScale s = maxZoom) ∧
    (minZoom ≤ s → s ≤ maxZoom → clampScale s = s) := by
  refine ⟨rfl, rfl, rfl, le_max_left _ _, ?_, fun h => ?_, fun h => ?_,
    fun h1 h2 => ?_⟩
  · rw [clampScale]
    exact max_le (by norm_num [minZoom, maxZoom]) (min_le_left _ _)
  · rw [clampScale, min_eq_right (le_of_lt (lt_of_lt_of_le h (by norm_num [minZoom, maxZoom]))),
      max_eq_left (le_of_lt h)]
  · rw [clampScale, min_eq_left (le_of_lt h),
      max_eq_right (by norm_num [minZoom, maxZoom])]
  · rw [clampScale, min_eq_right h2, max_eq_right h1]

/-- Witness for C3: the three clamping regimes at concrete requested
scales 0.1 (below range), 200 (above range) and 3 (in range). -/
theorem zoom_clamp_witness :
    clampScale 0.1 = minZoom ∧ clampScale 200 = maxZoom ∧
    clampScale 3 = 3 :=
  ⟨(zoom_clamp 0.1).2.2.2.2.2.1 (by norm_num [minZoom]),
   (zoom_clamp 200).2.2.2.2.2.2.1 (by norm_num [maxZoom]),
   (zoom_clamp 3).2.2.2.2.2.2.2 (by norm_num [minZoom]) (by norm_num [maxZoom])⟩

/-- C9: `resetZoom` yields the canonical overview transform — scale 0.8,
translate identity — independently of the prior transform, hence two
resets in a row agree; the transition is time-boxed at 250 ms. -/
theorem reset_canonical (t1 t2 : ViewTransform) :
    resetZoom t1 = ⟨0, 0, 0.8⟩ ∧
    (resetZoom t1).k = 0.8 ∧ (resetZoom t1).x = 0 ∧ (resetZoom t1).y = 0 ∧
    resetZoom (resetZoom t1) = resetZoom t1 ∧
    resetZoom t1 = resetZoom t2 ∧
    resetDuration = 250 := by
  have h : resetZoom t1 = ⟨0, 0, 0.8⟩ := by
    rw [resetZoom, ViewTransform.scale]
    norm_num [zoomIdentity]
  exact ⟨h, by rw [h], by rw [h], by rw [h], rfl, rfl, rfl⟩

/-- The parallel arrays of the input dataset (`data.cellid`, `data.xumap`,
`data.yumap`, `data.celltype`) plus the distinct category list
`data.celltypes`. -/
structure Dataset where
  cellid : List String
  xumap : List ℚ
  yumap : List ℚ
  celltype : List String
  celltypes : List String

/-- `xs.reduce((min, cur) => Math.min(min, cur), xs[0])` (App.tsx lines 7
and 11): on an empty array, `xs[0]` is `undefined` and `reduce` returns that
initial value untouched — modelled as `none`; on a non-empty array the fold
starts from the head. -/
def reduceMin (xs : List ℚ) : Option ℚ :=
  match xs with
  | [] => none
  | x :: _ => some (xs.foldl min x)

/-- `xs.reduce((max, cur) => Math.max(max, cur), xs[0])` (App.tsx lines 8
and 12), with the same `undefined`-on-empty behavior as `reduceMin`. -/
def reduceMax (xs : List ℚ) : Option ℚ :=
  match xs with
  | [] => none
  | x :: _ => some (xs.foldl max x)

/-- The four module-level bounds as the startup code computes them; a `none`
component is the JS `undefined` that the unguarded reduce produces on an
empty coordinate array. -/
structure DomainBounds where
  minX : Option ℚ
  maxX : Option ℚ
  minY : Option ℚ
  maxY : Option ℚ

/-- The startup domain computation (App.tsx lines 6-12): a total function —
there is no guard and no error path. -/
def computeDomain (dta : Dataset) : DomainBounds :=
  ⟨reduceMin dta.xumap, reduceMax dta.xumap,
   reduceMin dta.yumap, reduceMax dta.yumap⟩

/-- JS `Map.prototype.set` on an association list: overwrite the value in
place if the key is present, otherwise append the new entry. -/
def mapSet : List (String × String) → String → String → List (String × String)
  | [], k, v => [(k, v)]
  | (k0, v0) :: rest, k, v =>
      if k0 = k then (k, v) :: rest else (k0, v0) :: mapSet rest k v

/-- JS `Map.prototype.get` on an association list: the value of the entry
with the given key, or `none` (JS `undefined`) when absent. `mapSet` keeps
keys unique, so the first match is the only match. -/
def mapGet : List (String × String) → String → Option String
  | [], _ => none
  | (k0, v0) :: rest, k => if k0 = k then some v0 else mapGet rest k

/-- The `cellColors` map construction (App.tsx lines 15-17):
`for (const celltype of data.celltypes) if (celltype !== "Total")
cellColors.set(celltype, faker.color.rgb())`. The external color service is
abstracted as the function `assign`. -/
def buildCellColors (celltypes : List String) (assign : String → String) :
    List (String × String) :=
  celltypes.foldl
    (fun m celltype =>
      if celltype ≠ "Total" then mapSet m celltype (assign celltype) else m)
    []

/-- The fill expression of a marker, `cellColors.get(celltype) ?? "black"`
(App.tsx line 214). -/
def pointFill (colors : List (String × String)) (celltype : String) : String :=
  (mapGet colors celltype).getD "black"

/-- The marker radius, `tooltip ? unit * 2 : unit` (App.tsx line 213). -/
def pointRadius (tooltip : Bool) (u : ℚ) : ℚ :=
  if tooltip then u * 2 else u

/-- The `onMouseEnter` handler `() => setTooltip(true)` (App.tsx line 216). -/
def hoverEnter (_tooltip : Bool) : Bool := true

/-- The `onMouseLeave` handler `() => setTooltip(false)` (App.tsx line 217). -/
def hoverLeave (_tooltip : Bool) : Bool := false

/-- The SVG circle a `Point` component renders (App.tsx lines 209-218). -/
structure Circle where
  cx : ℚ
  cy : ℚ
  r : ℚ
  fill : String
  fillOpacity : ℚ

/-- The `Point` component (App.tsx lines 195-218): it returns `null` when
`i < 0 || i >= data.cellid.length` and otherwise the circle at
`(xumap[i], yumap[i])` with radius `tooltip ? unit * 2 : unit` and fill
`cellColors.get(celltype[i]) ?? "black"`. Array reads at a valid index are
embedded with `List.getD` (the defaults are unreachable for parallel arrays
of equal length, which the guard on `cellid.length` presumes). -/
def renderPoint (dta : Dataset) (colors : List (String × String)) (i : ℤ)
    (u : ℚ) (tooltip : Bool) : Option Circle :=
  if i < 0 ∨ (dta.cellid.length : ℤ) ≤ i then none
  else
    some
      { cx := dta.xumap.getD i.toNat 0
        cy := dta.yumap.getD i.toNat 0
        r := pointRadius tooltip u
        fill := pointFill colors (dta.celltype.getD i.toNat "")
        fillOpacity := 0.8 }

/-- One of the `path` elements of the frame (App.tsx lines 90-114): its
vertex list, stroke, stroke width and fill. -/
structure FramePath where
  points : List (ℚ × ℚ)
  stroke : String
  strokeWidth : ℚ
  fill : String

/-- The L-shaped bounding-box border
`M minX maxY L minX minY L maxX minY` (App.tsx lines 90-96). -/
def borderPath (d : Domain) (u : ℚ) : FramePath :=
  ⟨[(d.minX, d.maxY), (d.minX, d.minY), (d.maxX, d.minY)],
   "black", u / 2, "none"⟩

/-- The arrowhead glyph at the top-left extreme (App.tsx lines 97-105). -/
def arrowTopLeft (d : Domain) (u : ℚ) : FramePath :=
  ⟨[(d.minX, d.maxY + u), (d.minX - u / 2, d.maxY), (d.minX + u / 2, d.maxY),
    (d.minX, d.maxY + u)],
   "black", u / 2, "black"⟩

/-- The arrowhead glyph at the bottom-right extreme (App.tsx lines 106-114). -/
def arrowBottomRight (d : Domain) (u : ℚ) : FramePath :=
  ⟨[(d.maxX + u, d.minY), (d.maxX, d.minY - u / 2), (d.maxX, d.minY + u / 2),
    (d.maxX + u, d.minY)],
   "black", u / 2, "black"⟩

/-- One axis-range text label: the translate of its enclosing group, the
scale applied to the text element, and the numeric value its `tspan`
reports (with the `x=`/`y=` prefix recorded in `axis`). -/
structure AxisLabel where
  tx : ℚ
  ty : ℚ
  sx : ℚ
  sy : ℚ
  axis : String
  value : ℚ

/-- The axis-range labels of the scene (App.tsx lines 115-132): the group at
the bottom-left corner carries the two tspans `x={minX}` and `y={minY}`, the
group above the top-left corner carries `y={maxY}`, and the group below the
bottom-right corner carries `x={maxX}`; every text element is scaled by
`(unit / 4, -unit / 4)`. -/
def axisLabels (d : Domain) (u : ℚ) : List AxisLabel :=
  [⟨d.minX - u * 10, d.minY - u * 5, u / 4, -(u / 4), "x", d.minX⟩,
   ⟨d.minX - u * 10, d.minY - u * 5, u / 4, -(u / 4), "y", d.minY⟩,
   ⟨d.minX - u * 10, d.maxY + u * 5, u / 4, -(u / 4), "y", d.maxY⟩,
   ⟨d.maxX - u * 10, d.minY - u * 5, u / 4, -(u / 4), "x", d.maxX⟩]

/-- C4: at a valid index the marker is a filled circle at the point's fixed
data coordinates whose radius is `unit` while the tooltip is hidden and
`unit * 2` while it is shown; hover enter sets the tooltip state to shown,
hover leave resets it to hidden, so enter-then-leave returns the radius to
`unit`; the rendered position does not depend on the tooltip state. -/
theorem point_marker_hover (dta : Dataset) (colors : List (String × String))
    (u : ℚ) (i : ℕ) (hi : i < dta.cellid.length) :
    (∀ t : Bool, renderPoint dta colors i u t =
        some ⟨dta.xumap.getD i 0, dta.yumap.getD i 0, pointRadius t u,
              pointFill colors (dta.celltype.getD i ""), 0.8⟩) ∧
    pointRadius false u = u ∧ pointRadius true u = u * 2 ∧
    hoverEnter false = true ∧
    (∀ s : Bool, hoverLeave (hoverEnter s) = false ∧
        pointRadius (hoverLeave (hoverEnter s)) u = u) := by
  refine ⟨fun t => ?_, rfl, rfl, rfl, fun s => ⟨rfl, rfl⟩⟩
  have hguard : ¬((i : ℤ) < 0 ∨ (dta.cellid.length : ℤ) ≤ (i : ℤ)) := by
    push_neg
    exact ⟨Int.ofNat_nonneg i, by exact_mod_cast hi⟩
  rw [renderPoint, if_neg hguard]
  simp

/-- Witness for C4: a one-point dataset rendered at index 0 with the
tooltip hidden. -/
theorem point_marker_hover_witness :
    renderPoint ⟨["c0"], [10], [20], ["Bcell"], ["Bcell", "Total"]⟩
        [("Bcell", "red")] 0 (2 / 5) false =
      some ⟨10, 20, 2 / 5, "red", 0.8⟩ := by
  have h := (point_marker_hover ⟨["c0"], [10], [20], ["Bcell"], ["Bcell", "Total"]⟩
    [("Bcell", "red")] (2 / 5) 0 (by norm_num)).1 false
  exact h.trans (by rfl)

/-- C5: an index that is out of range for the parallel data arrays —
negative or at least the array length — renders nothing (`null`) and raises
no error. -/
theorem point_out_of_range_noop (dta : Dataset)
    (colors : List (String × String)) (i : ℤ) (u : ℚ) (t : Bool)
    (h : i < 0 ∨ (dta.cellid.length : ℤ) ≤ i) :
    renderPoint dta colors i u t = none := by
  rw [renderPoint, if_pos h]

/-- Witness for C5: a negative index and an index beyond the length of a
one-point dataset both render nothing. -/
theorem point_out_of_range_noop_witness :
    renderPoint ⟨["c0"], [10], [20], ["Bcell"], ["Bcell"]⟩ [] (-1) (2 / 5)
        false = none ∧
    renderPoint ⟨["c0"], [10], [20], ["Bcell"], ["Bcell"]⟩ [] 5 (2 / 5)
        true = none :=
  ⟨point_out_of_range_noop _ _ _ _ _ (Or.inl (by norm_num)),
   point_out_of_range_noop _ _ _ _ _ (Or.inr (by decide))⟩

/-- C6: the scene holds exactly four axis labels reporting `minX`, `minY`,
`maxY`, `maxX`; each text is counter-scaled by `unit / 4` with a vertical
flip (negative y-scale), and each label sits strictly outside the bounding
frame, adjacent to the corner of its extreme. -/
theorem axis_labels_spec (d : Domain) (u : ℚ) (hu : 0 < u) :
    (axisLabels d u).length = 4 ∧
    (axisLabels d u).map AxisLabel.value = [d.minX, d.minY, d.maxY, d.maxX] ∧
    (∀ l ∈ axisLabels d u, l.sx = u / 4 ∧ l.sy = -(u / 4) ∧ l.sy < 0) ∧
    (∀ l ∈ axisLabels d u,
        l.tx < d.minX ∨ l.ty < d.minY ∨ d.maxY < l.ty) := by
  have hq : (0 : ℚ) < u / 4 := by linarith
  refine ⟨rfl, rfl, fun l hl => ?_, fun l hl => ?_⟩
  · simp only [axisLabels, List.mem_cons, List.not_mem_nil, or_false] at hl
    rcases hl with rfl | rfl | rfl | rfl <;>
      exact ⟨rfl, rfl, neg_lt_zero.mpr hq⟩
  · simp only [axisLabels, List.mem_cons, List.not_mem_nil, or_false] at hl
    rcases hl with rfl | rfl | rfl | rfl
    · exact Or.inl (by show d.minX - u * 10 < d.minX; linarith)
    · exact Or.inl (by show d.minX - u * 10 < d.minX; linarith)
    · exact Or.inl (by show d.minX - u * 10 < d.minX; linarith)
    · exact Or.inr (Or.inl (by show d.minY - u * 5 < d.minY; linarith))

/-- Witness for C6: the labels of the domain `[0,100] × [0,100]` at
`unit = 2/5`. -/
theorem axis_labels_spec_witness :
    (axisLabels ⟨0, 100, 0, 100⟩ (2 / 5)).length = 4 :=
  (axis_labels_spec ⟨0, 100, 0, 100⟩ (2 / 5) (by norm_num)).1

/-- C7 counterexample: on a dataset with empty coordinate arrays the
startup domain computation evaluates to a record of `undefined` (`none`)
bounds. It is a total function with no error outcome — nothing guards the
empty case and no fatal precondition violation is reported, contradicting
the claim that the program explicitly guards it. -/
theorem domain_empty_counterexample :
    computeDomain ⟨[], [], [], [], []⟩ = ⟨none, none, none, none⟩ := rfl

/-- C7 amended: when the coordinate arrays are empty the domain computation
is unguarded — every bound silently evaluates to the `undefined` initial
value of the reduce, no error is raised, and startup proceeds with the
degenerate bounds. -/
theorem domain_empty_unguarded (dta : Dataset) (hx : dta.xumap = [])
    (hy : dta.yumap = []) :
    computeDomain dta = ⟨none, none, none, none⟩ := by
  simp [computeDomain, hx, hy, reduceMin, reduceMax]

/-- Witness for the amended C7: a dataset whose id and category arrays are
non-empty but whose coordinate arrays are empty. -/
theorem domain_empty_unguarded_witness :
    computeDomain ⟨["c0"], [], [], ["Bcell"], ["Bcell"]⟩ =
      ⟨none, none, none, none⟩ :=
  domain_empty_unguarded _ rfl rfl

/-- C10: the L-shaped border and both arrowhead glyphs are stroked with
width `unit / 2` — half the radius of an unhovered marker — at every zoom
factor. -/
theorem frame_stroke_width (d : Domain) (k : ℚ) :
    (borderPath d (unit d k)).strokeWidth = unit d k / 2 ∧
    (arrowTopLeft d (unit d k)).strokeWidth = unit d k / 2 ∧
    (arrowBottomRight d (unit d k)).strokeWidth = unit d k / 2 ∧
    (borderPath d (unit d k)).strokeWidth =
      pointRadius false (unit d k) / 2 ∧
    (arrowTopLeft d (unit d k)).strokeWidth =
      pointRadius false (unit d k) / 2 ∧
    (arrowBottomRight d (unit d k)).strokeWidth =
      pointRadius false (unit d k) / 2 :=
  ⟨rfl, rfl, rfl, rfl, rfl, rfl⟩

/-- Looking up the key just written by `mapSet` returns the written value. -/
theorem mapGet_mapSet_self (m : List (String × String)) (k v : String) :
    mapGet (mapSet m k v) k = some v := by
  induction m with
  | nil => simp [mapSet, mapGet]
  | cons p rest ih =>
    obtain ⟨k0, v0⟩ := p
    by_cases h : k0 = k
    · subst h
      simp [mapSet, mapGet]
    · simp [mapSet, mapGet, h, ih]

/-- `mapSet` leaves the lookup of every other key unchanged. -/
theorem mapGet_mapSet_ne (m : List (String × String)) (k v t : String)
    (h : k ≠ t) :
    mapGet (mapSet m k v) t = mapGet m t := by
  induction m with
  | nil => simp [mapSet, mapGet, h]
  | cons p rest ih =>
    obtain ⟨k0, v0⟩ := p
    by_cases hk : k0 = k
    · subst hk
      simp [mapSet, mapGet, h]
    · by_cases ht : k0 = t
      · subst ht
        simp [mapSet, mapGet, hk]
      · simp [mapSet, mapGet, hk, ht, ih]

/-- The color-map construction loop, over any accumulator: afterwards a
non-"Total" category looks up to its assigned color exactly when it occurs
in the traversed list, and otherwise the accumulator's binding is kept. -/
theorem mapGet_colors_loop (assign : String → String) (t : String)
    (ht : t ≠ "Total") :
    ∀ (cts : List String) (m : List (String × String)),
      mapGet
          (cts.foldl
            (fun m celltype =>
              if celltype ≠ "Total" then mapSet m celltype (assign celltype)
              else m)
            m) t =
        if t ∈ cts then some (assign t) else mapGet m t := by
  intro cts
  induction cts with
  | nil => intro m; simp
  | cons c rest ih =>
    intro m
    rw [List.foldl_cons, ih]
    by_cases hm : t ∈ rest
    · simp [hm]
    · by_cases hc : c = t
      · subst hc
        simp [ht, hm, mapGet_mapSet_self]
      · by_cases hcT : c = "Total"
        · simp [hcT, hm, Ne.symm hc, ht]
        · simp [hcT, hm, Ne.symm hc, mapGet_mapSet_ne _ _ _ _ hc]

/-- The loop never inserts the key "Total". -/
theorem mapGet_colors_loop_total (assign : String → String) :
    ∀ (cts : List String) (m : List (String × String)),
      mapGet m "Total" = none →
      mapGet
          (cts.foldl
            (fun m celltype =>
              if celltype ≠ "Total" then mapSet m celltype (assign celltype)
              else m)
            m) "Total" = none := by
  intro cts
  induction cts with
  | nil => intro m h; simpa using h
  | cons c rest ih =>
    intro m h
    rw [List.foldl_cons]
    apply ih
    by_cases hc : c = "Total"
    · rw [if_neg (not_not_intro hc)]
      exact h
    · rw [if_pos hc, mapGet_mapSet_ne _ _ _ _ hc]
      exact h

/-- C8: the color mapping built from the category list excludes the
category literally named "Total"; a category in the mapping fills with its
assigned color, any category absent from the mapping (including "Total")
falls back to the default black fill, and every marker that renders at all
takes its fill from this rule — the lookup never fails the render. -/
theorem color_mapping_spec (cts : List String) (assign : String → String)
    (t : String) :
    mapGet (buildCellColors cts assign) "Total" = none ∧
    pointFill (buildCellColors cts assign) "Total" = "black" ∧
    (t ≠ "Total" → t ∈ cts →
      pointFill (buildCellColors cts assign) t = assign t) ∧
    (t ∉ cts → pointFill (buildCellColors cts assign) t = "black") ∧
    (∀ (dta : Dataset) (i : ℤ) (u : ℚ) (tt : Bool) (c : Circle),
      renderPoint dta (buildCellColors cts assign) i u tt = some c →
      c.fill = pointFill (buildCellColors cts assign)
          (dta.celltype.getD i.toNat "")) := by
  have htot : mapGet (buildCellColors cts assign) "Total" = none :=
    mapGet_colors_loop_total assign cts [] rfl
  refine ⟨htot, ?_, fun ht hm => ?_, fun hm => ?_, fun dta i u tt c hc => ?_⟩
  · simp [pointFill, htot]
  · simp only [pointFill, buildCellColors]
    rw [mapGet_colors_loop assign t ht, if_pos hm]
    rfl
  · by_cases ht : t = "Total"
    · subst ht
      simp [pointFill, htot]
    · simp only [pointFill, buildCellColors]
      rw [mapGet_colors_loop assign t ht, if_neg hm]
      rfl
  · by_cases hg : i < 0 ∨ (dta.cellid.length : ℤ) ≤ i
    · rw [renderPoint, if_pos hg] at hc
      exact absurd hc (by simp)
    · rw [renderPoint, if_neg hg, Option.some_inj] at hc
      subst hc
      rfl

/-- Witness for C8: over the category list `["Bcell", "Total"]`, the
present category "Bcell" fills with its assigned color, the absent
category "Tcell" and the excluded "Total" fill black, and a concretely
rendered marker carries that fill. -/
theorem color_mapping_spec_witness :
    pointFill (buildCellColors ["Bcell", "Total"] (fun _ => "red"))
        "Bcell" = "red" ∧
    pointFill (buildCellColors ["Bcell", "Total"] (fun _ => "red"))
        "Tcell" = "black" ∧
    Circle.fill ⟨10, 20, 2 / 5, "red", 0.8⟩ =
      pointFill (buildCellColors ["Bcell", "Total"] (fun _ => "red"))
        ((["Bcell"] : List String).getD (Int.toNat 0) "") :=
  ⟨(color_mapping_spec ["Bcell", "Total"] (fun _ => "red") "Bcell").2.2.1
      (by decide) (by decide),
   (color_mapping_spec ["Bcell", "Total"] (fun _ => "red") "Tcell").2.2.2.1
      (by decide),
   (color_mapping_spec ["Bcell", "Total"] (fun _ => "red") "Bcell").2.2.2.2
      ⟨["c0"], [10], [20], ["Bcell"], ["Bcell", "Total"]⟩ 0 (2 / 5) false
      ⟨10, 20, 2 / 5, "red", 0.8⟩ (by rfl)⟩

end Novasenta
